import Mathlib

/-!
Verification of the multipart codec in `hata/backend/multipart.py` against its
natural-language specification.  Byte strings are modelled as `List Nat`
(byte values), Python strings as `List Char`.  Fallible Python code (raised
exceptions) is modelled with `Except PyErr`.
-/

set_option maxRecDepth 4000

/-- Kinds of Python exceptions the modelled code can raise. -/
inductive PyErr where
  | attributeError
  | typeError
  | valueError
  | runtimeError
  | lookupError
  | unicodeDecodeError
  | indexError
  deriving DecidableEq, Repr

deriving instance DecidableEq for Except

/-! ## Byte-level helpers for `MultipartWriter.boundary_value` -/

/-- Valid structured-header token byte, per the `_valid_tchar_regex`
`\A[!#$%&'*+\-.^_`|~\w]+\Z` in `MultipartWriter` (with `\w` the ASCII
word characters of a bytes regex). -/
def tcharB (n : Nat) : Bool :=
  (48 ≤ n && n ≤ 57) || (65 ≤ n && n ≤ 90) || (97 ≤ n && n ≤ 122) ||
  n == 33 || n == 35 || n == 36 || n == 37 || n == 38 || n == 39 ||
  n == 42 || n == 43 || n == 45 || n == 46 || n == 94 || n == 95 ||
  n == 96 || n == 124 || n == 126

/-- Byte illegal even inside a quoted string, per `_invalid_qdtext_char_regex`
`[\x00-\x08\x0A-\x1F\x7F]` in `MultipartWriter`. -/
def badQdtextB (n : Nat) : Bool :=
  n ≤ 8 || (10 ≤ n && n ≤ 31) || n == 127

/-- Escaping of `\x5C` and `\x22` done by `MultipartWriter.boundary_value`
before quoting (two sequential `bytes.replace` calls, equivalent to this
per-byte expansion because the first replace introduces no `\x22` and the
second introduces no further `\x5C` pairs to rewrite). -/
def escQuoted (l : List Nat) : List Nat :=
  l.flatMap fun n => if n == 92 then [92, 92] else if n == 34 then [92, 34] else [n]

/-- `MultipartWriter.boundary_value`: emit the raw token if the boundary is a
nonempty run of tchar bytes; raise `ValueError` if it holds a byte that is
illegal even inside a quoted string; otherwise emit a quoted string with
`\x5C` and `\x22` escaped. -/
def boundary_value (b : List Nat) : Except PyErr (List Nat) :=
  if b ≠ [] && b.all tcharB then .ok b
  else if b.any badQdtextB then .error .valueError
  else .ok (34 :: (escQuoted b ++ [34]))

/-! ## Base64 and the `MultipartPayloadWriter` encoding sink -/

/-- Base64 alphabet: sextet value (0..63) to ASCII code. -/
def b64char (n : Nat) : Nat :=
  if n < 26 then 65 + n
  else if n < 52 then 97 + (n - 26)
  else if n < 62 then 48 + (n - 52)
  else if n = 62 then 43
  else 47

/-- Base64 encoding of a full 3-byte group. -/
def b64group (a b c : Nat) : List Nat :=
  [b64char (a / 4), b64char ((a % 4) * 16 + b / 16),
   b64char ((b % 16) * 4 + c / 64), b64char (c % 64)]

/-- Base64 encoding of a trailing 2-byte group (one `=` pad). -/
def b64pad2 (a b : Nat) : List Nat :=
  [b64char (a / 4), b64char ((a % 4) * 16 + b / 16), b64char ((b % 16) * 4), 61]

/-- Base64 encoding of a trailing 1-byte group (two `=` pads). -/
def b64pad1 (a : Nat) : List Nat :=
  [b64char (a / 4), b64char ((a % 4) * 16), 61, 61]

/-- `base64.b64encode`: standard base64 of a byte string (output as ASCII
byte values). -/
def b64encode : List Nat → List Nat
  | a :: b :: c :: rest => b64group a b c ++ b64encode rest
  | [a, b] => b64pad2 a b
  | [a] => b64pad1 a
  | [] => []

/-- State of a `MultipartPayloadWriter` with base64 transfer encoding enabled
and no compressor: the internal `encoding_buffer` accumulator and the
concatenation of all bytes written to the underlying writer so far. -/
structure MPW where
  buffer : List Nat
  out : List Nat
  deriving DecidableEq, Repr

/-- `MultipartPayloadWriter.write` for the base64/no-compressor configuration:
append the chunk to the accumulator, then flush the largest whole multiple of
3 bytes through `base64.b64encode` to the underlying writer, retaining the
remainder. -/
def mpwWrite (s : MPW) (chunk : List Nat) : MPW :=
  let buf := s.buffer ++ chunk
  let barrier := (buf.length / 3) * 3
  if barrier = 0 then { buffer := buf, out := s.out }
  else { buffer := buf.drop barrier, out := s.out ++ b64encode (buf.take barrier) }

/-- `MultipartPayloadWriter.write_eof` for the base64/no-compressor
configuration: if the accumulator is nonempty, base64-encode it (as a final
padded group) onto the underlying writer. -/
def mpwWriteEof (s : MPW) : MPW :=
  if s.buffer = [] then s else { s with out := s.out ++ b64encode s.buffer }

/-- Base64 encoding splits across any boundary at a multiple of 3 input
bytes. -/
theorem b64encode_append (a : List Nat) (h : a.length % 3 = 0) (b : List Nat) :
    b64encode (a ++ b) = b64encode a ++ b64encode b := by
  induction a using b64encode.induct with
  | case1 x y z rest ih =>
      have h3 : rest.length % 3 = 0 := by
        simp only [List.length_cons] at h; omega
      simp only [List.cons_append, b64encode, List.append_assoc, List.append_eq]
      rw [ih h3]
  | case2 x y => simp only [List.length_cons, List.length_nil] at h; omega
  | case3 x => simp only [List.length_cons, List.length_nil] at h; omega
  | case4 => simp [b64encode]

/-- Sink invariant: after feeding the byte sequence `fed`, the underlying
writer holds the base64 encoding of a whole-multiple-of-3 prefix of `fed`
and the accumulator holds the rest (fewer than 3 bytes). -/
def mpwInv (fed : List Nat) (s : MPW) : Prop :=
  ∃ k, k % 3 = 0 ∧ k ≤ fed.length ∧ fed.length - k < 3 ∧
    s.out = b64encode (fed.take k) ∧ s.buffer = fed.drop k

theorem mpwInv_init : mpwInv [] ⟨[], []⟩ := by
  exact ⟨0, by simp [b64encode]⟩

theorem mpwInv_step {fed : List Nat} {s : MPW} (h : mpwInv fed s)
    (c : List Nat) : mpwInv (fed ++ c) (mpwWrite s c) := by
  obtain ⟨k, hk3, hkle, hrem, hout, hbuf⟩ := h
  have hbufLen : (s.buffer ++ c).length = (fed.length - k) + c.length := by
    simp [hbuf]
  by_cases hz : ((s.buffer ++ c).length / 3) * 3 = 0
  · refine ⟨k, hk3, ?_, ?_, ?_, ?_⟩
    · simp only [List.length_append]; omega
    · have : (s.buffer ++ c).length < 3 := by omega
      simp only [List.length_append]; omega
    · rw [mpwWrite, if_pos hz]
      rw [hout, List.take_append_of_le_length hkle]
    · rw [mpwWrite, if_pos hz]
      simp only [hbuf, List.drop_append_of_le_length hkle]
  · set buf := s.buffer ++ c with hbufdef
    set barrier := (buf.length / 3) * 3 with hbar
    have hbar3 : barrier % 3 = 0 := by simp [hbar, Nat.mul_mod_left]
    have hbarle : barrier ≤ buf.length := Nat.div_mul_le_self buf.length 3
    refine ⟨k + barrier, ?_, ?_, ?_, ?_, ?_⟩
    · omega
    · simp only [List.length_append]; omega
    · have : buf.length - barrier = buf.length % 3 := by
        simp only [hbar]; omega
      have hm : buf.length % 3 < 3 := Nat.mod_lt _ (by omega)
      simp only [List.length_append]; omega
    · rw [mpwWrite, if_neg hz]
      simp only
      rw [hout, ← b64encode_append (fed.take k)
        (by simp [List.length_take, Nat.min_eq_left hkle, hk3])]
      congr 1
      rw [List.take_add, List.take_append_of_le_length hkle,
        List.drop_append_of_le_length hkle, ← hbuf]
    · rw [mpwWrite, if_neg hz]
      simp only
      rw [← List.drop_drop, List.drop_append_of_le_length hkle, ← hbuf]

theorem mpwInv_fold_from {fed : List Nat} {s : MPW} (h : mpwInv fed s) :
    ∀ chunks : List (List Nat),
      mpwInv (fed ++ chunks.flatten) (List.foldl mpwWrite s chunks) := by
  intro chunks
  induction chunks generalizing fed s with
  | nil => simpa using h
  | cons c cs ih =>
      have := ih (mpwInv_step h c)
      simpa [List.append_assoc] using this

theorem mpwInv_fold (chunks : List (List Nat)) :
    mpwInv chunks.flatten (List.foldl mpwWrite ⟨[], []⟩ chunks) := by
  simpa using mpwInv_fold_from mpwInv_init chunks

theorem mpwInv_eof {fed : List Nat} {s : MPW} (h : mpwInv fed s) :
    (mpwWriteEof s).out = b64encode fed := by
  obtain ⟨k, hk3, hkle, hrem, hout, hbuf⟩ := h
  by_cases hb : s.buffer = []
  · have hlen : fed.length ≤ k := by
      have := congrArg List.length hbuf
      simp [hb] at this
      omega
    have hk : k = fed.length := Nat.le_antisymm hkle hlen
    rw [mpwWriteEof, if_pos hb, hout, hk, List.take_length]
  · rw [mpwWriteEof, if_neg hb, hout, hbuf,
      ← b64encode_append (fed.take k)
        (by simp [List.length_take, Nat.min_eq_left hkle, hk3]),
      List.take_append_drop]

/-- C7: feeding any input to the base64 encoding sink (no compressor) in
chunks of sizes 1, 2, 3, 7 or 4096 and then calling `write_eof` produces on
the underlying writer exactly the one-shot base64 encoding of the whole
input; and after every prefix of the writes, only a whole multiple of 3
input bytes has been encoded, with the remainder retained in the
accumulator. -/
theorem c7_base64_chunk_invariance (chunks : List (List Nat))
    (hsz : ∀ c ∈ chunks, c.length = 1 ∨ c.length = 2 ∨ c.length = 3 ∨
      c.length = 7 ∨ c.length = 4096) :
    (mpwWriteEof (List.foldl mpwWrite ⟨[], []⟩ chunks)).out =
      b64encode chunks.flatten ∧
    (∀ pre suf : List (List Nat), chunks = pre ++ suf →
      ∃ k, k % 3 = 0 ∧
        (List.foldl mpwWrite ⟨[], []⟩ pre).out = b64encode (pre.flatten.take k) ∧
        (List.foldl mpwWrite ⟨[], []⟩ pre).buffer = pre.flatten.drop k) := by
  refine ⟨mpwInv_eof (mpwInv_fold chunks), ?_⟩
  intro pre suf _
  obtain ⟨k, hk3, _, _, hout, hbuf⟩ := mpwInv_fold pre
  exact ⟨k, hk3, hout, hbuf⟩

/-- C7 witness: the input `[1,2,3,4]` fed in chunks of sizes 1, 2 and 1
encodes, after `write_eof`, exactly like one-shot base64. -/
theorem c7_base64_chunk_invariance_witness :
    (mpwWriteEof (List.foldl mpwWrite ⟨[], []⟩ [[1], [2, 3], [4]])).out =
      b64encode [1, 2, 3, 4] :=
  (c7_base64_chunk_invariance [[1], [2, 3], [4]] (by decide)).1

/-! ## Transport stream model and `BodyPartReader`

The transport collaborator (spec §6) delivers bytes in scheduled chunks:
`read(n)` returns up to `n` bytes from the front chunk, `unread_data`
pushes bytes back to the front, `readline` consumes up to and including the
next LF, `at_eof` reports exhaustion. -/

/-- A transport stream: the queue of pending delivery chunks. -/
abbrev TStream := List (List Nat)

/-- `read(n)`: return up to `n` bytes (the front chunk, truncated). -/
def streamRead (n : Nat) : TStream → (List Nat × TStream)
  | [] => ([], [])
  | c :: cs =>
      let rest := c.drop n
      (c.take n, if rest.isEmpty then cs else rest :: cs)

/-- `at_eof()`: no pending data. -/
def streamAtEof (s : TStream) : Bool := s.isEmpty

/-- `unread_data(data)`: push bytes back onto the front of the stream. -/
def streamUnread (d : List Nat) (s : TStream) : TStream :=
  if d.isEmpty then s else d :: s

/-- `readline()`: consume and return bytes up to and including the next LF
(byte 10), or everything up to end of stream. -/
def streamReadline : TStream → (List Nat × TStream)
  | [] => ([], [])
  | c :: cs =>
      match c.findIdx? (· == 10) with
      | some i =>
          let rest := c.drop (i + 1)
          (c.take (i + 1), if rest.isEmpty then cs else rest :: cs)
      | none =>
          let (l, s') := streamReadline cs
          (c ++ l, s')

/-- Python `bytes.find(sub)` from index 0: first offset at which `sub`
occurs, if any. -/
def bfind (sub : List Nat) : List Nat → Nat → Option Nat
  | l, i =>
      if sub.isPrefixOf l then some i
      else match l with
        | [] => none
        | _ :: t => bfind sub t (i + 1)

/-- Python `bytes.find(sub, start)`. -/
def bfindFrom (sub win : List Nat) (start : Nat) : Option Nat :=
  match bfind sub (win.drop start) 0 with
  | some k => some (start + k)
  | none => none

/-- Python slice `l[a:b]` (for nonnegative bounds). -/
def pySlice (a b : Nat) (l : List Nat) : List Nat :=
  (l.drop a).take (b - a)

/-- State of a `BodyPartReader`: boundary token, declared content length (if
any), running byte counter, end-of-part flag, carried-over chunk buffer for
boundary scanning, transport-eof counter, and the transport stream itself. -/
structure RState where
  boundary : List Nat
  length : Option Nat
  readBytes : Nat
  atEof : Bool
  prevChunk : Option (List Nat)
  contentEof : Nat
  content : TStream
  deriving DecidableEq, Repr

/-- `BodyPartReader._read_chunk_from_length`: read up to
`min(size, length - read_bytes)` bytes directly from the transport. -/
def readChunkFromLength (size : Nat) (st : RState) : List Nat × RState :=
  let remaining := (st.length.getD 0) - st.readBytes
  let (c, s') := streamRead (min size remaining) st.content
  (c, { st with content := s' })

/-- `BodyPartReader._read_chunk_from_stream`: sliding-window boundary scan.
On the first call two chunks are read and scanned from offset 0; afterwards
the scan starts at `max(0, len(prev) - len(CRLF + boundary))`.  On a hit the
window suffix from the hit onward is pushed back to the transport, the
previous chunk is truncated at the hit, and an empty carried chunk marks
end-of-part. -/
def readChunkFromStream (size : Nat) (st : RState) : List Nat × RState :=
  let firstChunk := st.prevChunk.isNone
  let (prev, s1) :=
    match st.prevChunk with
    | none => streamRead size st.content
    | some p => (p, st.content)
  let (chunk, s2) := streamRead size s1
  let ceof := st.contentEof + (if streamAtEof s2 then 1 else 0)
  let window := prev ++ chunk
  let sub := 13 :: 10 :: st.boundary
  let idx? :=
    if firstChunk then bfind sub window 0
    else bfindFrom sub window (prev.length - sub.length)
  match idx? with
  | some idx =>
      let s3 := streamUnread (window.drop idx) s2
      let prev' := if idx < size then prev.take idx else prev
      let chunk' := pySlice prev'.length idx window
      (prev', { st with
        content := s3
        contentEof := ceof
        prevChunk := some chunk'
        atEof := if chunk'.isEmpty then true else st.atEof })
  | none =>
      (prev, { st with
        content := s2
        contentEof := ceof
        prevChunk := some chunk })

/-- `BodyPartReader.read_chunk`: returns empty at end-of-part; otherwise
dispatches on the truthiness of the declared length (note: a declared length
of `0` is falsy in Python and takes the stream-scanning path), updates the
byte counter, sets end-of-part on exact equality with the declared length,
and on reaching end-of-part consumes one trailing line from the transport. -/
def readChunk (size : Nat) (st : RState) : List Nat × RState :=
  if st.atEof then ([], st)
  else
    let lengthTruthy : Bool := match st.length with
      | some l => l != 0
      | none => false
    let (c, st1) :=
      if lengthTruthy then readChunkFromLength size st
      else readChunkFromStream size st
    let st2 := { st1 with readBytes := st1.readBytes + c.length }
    let lengthHit : Bool := match st2.length with
      | some l => st2.readBytes == l
      | none => false
    let st3 := if lengthHit then { st2 with atEof := true } else st2
    let st4 :=
      if st3.atEof then
        { st3 with content := (streamReadline st3.content).2 }
      else st3
    (c, st4)

/-- Reading at least a chunk's length consumes exactly that chunk. -/
theorem streamRead_all {n : Nat} {c : List Nat} (cs : TStream)
    (h : c.length ≤ n) : streamRead n (c :: cs) = (c, cs) := by
  simp [streamRead, List.take_of_length_le h, List.drop_eq_nil_of_le h]

/-- A `streamRead` never returns more than the requested byte count. -/
theorem streamRead_length_le (n : Nat) (s : TStream) :
    (streamRead n s).1.length ≤ n := by
  cases s with
  | nil => simp [streamRead]
  | cons c cs =>
      simpa [streamRead] using Nat.le_trans (Nat.le_of_eq (List.length_take n c))
        (Nat.min_le_left _ _)

/-- C3: once the end-of-part flag is set, `read_chunk` returns the empty
byte string and leaves the reader state (including the transport stream)
completely unchanged, for any requested size — hence for any number of
repeated calls no transport operation is performed. -/
theorem c3_eof_idempotent (size : Nat) (st : RState) (h : st.atEof = true) :
    readChunk size st = ([], st) := by
  simp [readChunk, h]

/-- C3 witness: a concrete end-of-part state is returned untouched. -/
theorem c3_eof_idempotent_witness :
    readChunk 5 ⟨[66], none, 3, true, none, 0, [[1, 2, 3]]⟩ =
      ([], ⟨[66], none, 3, true, none, 0, [[1, 2, 3]]⟩) :=
  c3_eof_idempotent 5 ⟨[66], none, 3, true, none, 0, [[1, 2, 3]]⟩ rfl

/-- C8 counterexample: a part whose headers declare content-length `L = 0`
does NOT take the direct-read path: `if self._length:` is falsy for `0`, so
the reader boundary-scans and can return body bytes, here `[88, 89]` (from a
malformed stream carrying data before the boundary), although the claim
predicts at most `min(max_size, L - read) = 0` bytes. -/
theorem c8_declared_length_reads_cex :
    (readChunk 100 ⟨[66], some 0, 0, false, none, 0, [[88, 89, 13, 10, 66]]⟩).1 =
      [88, 89] ∧ ([88, 89] : List Nat) ≠ [] := by
  exact ⟨by decide, by decide⟩

/-- C8 (amended): for a part whose headers declare a content-length `L ≥ 1`
(a declared length of 0 is falsy in Python and takes the boundary-scanning
path instead), each `read_chunk(max_size)` returns up to
`min(max_size, L - bytes_read_so_far)` bytes read directly from the
transport without boundary scanning, and end-of-part is set exactly when the
running total of bytes read equals `L`. -/
theorem c8_declared_length_reads (size : Nat) (st : RState) (L : Nat)
    (hEof : st.atEof = false) (hLen : st.length = some L) (hL : 1 ≤ L) :
    (readChunk size st).1 =
      (streamRead (min size (L - st.readBytes)) st.content).1 ∧
    (readChunk size st).1.length ≤ min size (L - st.readBytes) ∧
    ((readChunk size st).2.atEof = true ↔
      st.readBytes + (readChunk size st).1.length = L) := by
  obtain ⟨bd, len, rb, ae, pc, ce, ct⟩ := st
  simp only at hEof hLen ⊢
  subst hEof hLen
  have hL0 : (L != 0) = true := by simpa using Nat.pos_iff_ne_zero.mp hL
  rcases hsr : streamRead (min size (L - rb)) ct with ⟨c, s'⟩
  have hlen : c.length ≤ min size (L - rb) := by
    have := streamRead_length_le (min size (L - rb)) ct
    rwa [hsr] at this
  by_cases hHit : rb + c.length = L
  · simp [readChunk, readChunkFromLength, hL0, hsr, hHit, hlen]
  · have hHit' : (rb + c.length == L) = false := by simpa using hHit
    simp [readChunk, readChunkFromLength, hL0, hsr, hHit', hlen, hHit]

/-- C8 witness: a reader with declared length 5 and 0 bytes read returns
the two requested bytes directly from the transport and is not yet at
end-of-part. -/
theorem c8_declared_length_reads_witness :
    (readChunk 2 ⟨[66], some 5, 0, false, none, 0,
        [[10, 20, 30, 40, 50, 99]]⟩).1 =
      (streamRead (min 2 (5 - 0)) [[10, 20, 30, 40, 50, 99]]).1 ∧
    (readChunk 2 ⟨[66], some 5, 0, false, none, 0,
        [[10, 20, 30, 40, 50, 99]]⟩).1.length ≤ min 2 (5 - 0) ∧
    ((readChunk 2 ⟨[66], some 5, 0, false, none, 0,
        [[10, 20, 30, 40, 50, 99]]⟩).2.atEof = true ↔
      0 + (readChunk 2 ⟨[66], some 5, 0, false, none, 0,
        [[10, 20, 30, 40, 50, 99]]⟩).1.length = 5) :=
  c8_declared_length_reads 2 ⟨[66], some 5, 0, false, none, 0,
    [[10, 20, 30, 40, 50, 99]]⟩ 5 rfl rfl (by decide)

/-- C2: boundary straddling.  For a boundary token `b` of length `B ≥ 2`, a
part body `d` followed on the stream by `CRLF ++ b` (then anything), with
the transport delivering the bytes in two reads split `j` bytes into the
boundary for any offset `1 ≤ j ≤ B - 1`, a single `read_chunk` of a reader
without a declared content-length yields exactly the pre-boundary body bytes
`d` (no boundary bytes included, no body bytes lost) and sets end-of-part.
The hypothesis `hfind` states that the earliest occurrence of
`CRLF ++ boundary` in the stream is the real one, at offset `d.length`. -/
theorem c2_boundary_straddle (b d rest : List Nat) (size j : Nat)
    (hj1 : 1 ≤ j) (hjB : j < b.length)
    (hsz1 : d.length + 2 + j ≤ size)
    (hsz2 : (b.length - j) + rest.length + 2 ≤ size)
    (hfind : bfind (13 :: 10 :: b) (d ++ (13 :: 10 :: b) ++ rest) 0 =
      some d.length) :
    (readChunk size ⟨b, none, 0, false, none, 0,
        [d ++ (13 :: 10 :: b).take (2 + j),
         (13 :: 10 :: b).drop (2 + j) ++ rest]⟩).1 = d ∧
    (readChunk size ⟨b, none, 0, false, none, 0,
        [d ++ (13 :: 10 :: b).take (2 + j),
         (13 :: 10 :: b).drop (2 + j) ++ rest]⟩).2.atEof = true := by
  set sub : List Nat := 13 :: 10 :: b with hsub
  set c1 : List Nat := d ++ sub.take (2 + j) with hc1
  set c2 : List Nat := sub.drop (2 + j) ++ rest with hc2
  have hsubLen : sub.length = b.length + 2 := by simp [hsub]
  have htakeLen : (sub.take (2 + j)).length = 2 + j := by
    simp only [List.length_take, hsubLen]
    omega
  have hc1Len : c1.length = d.length + (2 + j) := by
    simp [hc1, htakeLen]
  have hc2Len : c2.length = (b.length - j) + rest.length := by
    simp only [hc2, List.length_append, List.length_drop, hsubLen]
    omega
  have hr1 : streamRead size [c1, c2] = (c1, [c2]) :=
    streamRead_all [c2] (by omega)
  have hr2 : streamRead size [c2] = (c2, []) :=
    streamRead_all [] (by omega)
  have hwin : c1 ++ c2 = d ++ sub ++ rest := by
    rw [hc1, hc2, List.append_assoc, List.append_assoc]
    congr 1
    rw [← List.append_assoc, List.take_append_drop]
  have hidx : bfind sub (c1 ++ c2) 0 = some d.length := by
    rw [hwin]; exact hfind
  have hdlt : d.length < size := by omega
  have hprev : c1.take d.length = d := by
    rw [hc1, List.take_left]
  have hdrop : (c1 ++ c2).drop d.length = sub ++ rest := by
    rw [hwin, List.append_assoc, List.drop_left]
  have hstream : readChunkFromStream size ⟨b, none, 0, false, none, 0, [c1, c2]⟩ =
      (d, ⟨b, none, 0, true, some [], 1, [sub ++ rest]⟩) := by
    simp only [readChunkFromStream, Option.isNone_none, hr1, hr2, hidx,
      if_true, streamAtEof, List.isEmpty_nil, hdlt, hprev, hdrop]
    simp [pySlice, streamUnread, hsub]
  constructor
  · simp only [readChunk, Bool.false_eq_true, if_false, bne_self_eq_false,
      hstream]
  · simp only [readChunk, Bool.false_eq_true, if_false, bne_self_eq_false,
      hstream]
    simp

/-- C2 witness: boundary `[65, 66]` (B = 2), body `[100]`, split at offset
`j = 1` into the boundary; the reader yields exactly the body and reaches
end-of-part. -/
theorem c2_boundary_straddle_witness :
    (readChunk 10 ⟨[65, 66], none, 0, false, none, 0,
        [[100] ++ (13 :: 10 :: [65, 66]).take 3,
         (13 :: 10 :: [65, 66]).drop 3 ++ [13, 10]]⟩).1 = [100] ∧
    (readChunk 10 ⟨[65, 66], none, 0, false, none, 0,
        [[100] ++ (13 :: 10 :: [65, 66]).take 3,
         (13 :: 10 :: [65, 66]).drop 3 ++ [13, 10]]⟩).2.atEof = true :=
  c2_boundary_straddle [65, 66] [100] [13, 10] 10 1 (by decide) (by decide)
    (by decide) (by decide) (by decide)

/-! ## Python string helpers for the Content-Disposition codec

Python strings are modelled as `List Char`; `str.lower`, `str.strip` and
friends are modelled for the ASCII header text they are applied to. -/

/-- The double-quote character. -/
def quoteC : Char := Char.ofNat 34

/-- The apostrophe character. -/
def apoC : Char := Char.ofNat 39

/-- The backslash character. -/
def bslashC : Char := Char.ofNat 92

/-- The forward-slash character. -/
def slashC : Char := Char.ofNat 47

/-- Python whitespace for `str.strip` / `str.lstrip` (ASCII subset). -/
def pyIsSpace (c : Char) : Bool :=
  c == ' ' || c.toNat == 9 || c.toNat == 10 || c.toNat == 13 ||
  c.toNat == 11 || c.toNat == 12

/-- Python `str.lstrip()`. -/
def pyLStrip (s : List Char) : List Char := s.dropWhile pyIsSpace

/-- Python `str.strip()`. -/
def pyStrip (s : List Char) : List Char :=
  ((s.dropWhile pyIsSpace).reverse.dropWhile pyIsSpace).reverse

/-- Python `str.lower()` (ASCII header text). -/
def pyLower (s : List Char) : List Char := s.map Char.toLower

/-- Python `str.split(sep)` (all occurrences); always returns at least one
segment. -/
def splitAll (sep : Char) : List Char → List (List Char)
  | [] => [[]]
  | c :: rest =>
      match splitAll sep rest with
      | h :: t => if c == sep then [] :: h :: t else (c :: h) :: t
      | [] => [[c]]

/-- Python `str.split(sep, 1)`: the part before the first separator and the
part after it (the whole string and `[]` if the separator is absent). -/
def splitFirst (sep : Char) : List Char → (List Char × List Char)
  | [] => ([], [])
  | c :: rest =>
      if c == sep then ([], rest)
      else
        let p := splitFirst sep rest
        (c :: p.1, p.2)

/-- Modelled from the spec: the helper `TOKEN` character set imported from
the missing `helpers` module; §4.2 calls it "a valid HTTP token", i.e. the
RFC 7230 tchar alphabet. -/
def tcharChar (c : Char) : Bool := tcharB c.toNat

/-- `is_token` from `parse_content_disposition`: nonempty and every
character in `TOKEN`. -/
def is_token (s : List Char) : Bool := !s.isEmpty && s.all tcharChar

/-- Modelled from the spec: the helper `CHAR` set from the missing `helpers`
module (the ASCII characters), used by `unescape`'s regex. -/
def isCHAR (c : Char) : Bool := c.toNat < 128

/-- `unescape` from `parse_content_disposition`:
`re.sub('\\\\([CHAR])', '\\1', text)` — drop a backslash preceding any
ASCII character, scanning left to right without overlap. -/
def unescape : List Char → List Char
  | [] => []
  | c :: rest =>
      if c == bslashC then
        match rest with
        | [] => [c]
        | d :: rest2 =>
            if isCHAR d then d :: unescape rest2 else c :: unescape (d :: rest2)
      else c :: unescape rest

/-- `is_quoted` from `parse_content_disposition`:
`string[0] == string[-1] == double-quote`; raises `IndexError` on the empty
string. -/
def pyIsQuoted : List Char → Except PyErr Bool
  | [] => .error .indexError
  | c :: rest => .ok (c == quoteC && (c :: rest).getLastD c == quoteC)

/-- Python slice `value[1:-1]` (the inside of a quoted string). -/
def innerQ (s : List Char) : List Char := (s.drop 1).dropLast

/-- ASCII decimal digit. -/
def isDigitC (c : Char) : Bool := 48 ≤ c.toNat && c.toNat ≤ 57

/-- `is_continuous_param`: the key has a `*`, and what follows it (dropping
one trailing `*` if present) is all digits (Python `str.isdigit`, modelled
for the ASCII digits header keys use). -/
def is_continuous_param (key : List Char) : Bool :=
  match key.findIdx? (· == '*') with
  | none => false
  | some i =>
      let after := key.drop (i + 1)
      let sub := if key.getLast? == some '*' then after.dropLast else after
      !sub.isEmpty && sub.all isDigitC

/-- `is_extended_param`: the key ends with `*`. -/
def is_extended_param (key : List Char) : Bool :=
  key.getLast? == some '*'

/-- `is_rfc5987`: a token containing exactly two apostrophes. -/
def is_rfc5987 (v : List Char) : Bool :=
  is_token v && v.count apoC == 2

/-- Decimal rendering worker, recursing on explicit fuel so that the
definition reduces in the kernel; `fuel = n + 1` always suffices because the
quotient shrinks at every step. -/
def natStrGo : Nat → Nat → List Char
  | 0, _ => []
  | fuel + 1, n =>
      if n < 10 then [Char.ofNat (48 + n)]
      else natStrGo fuel (n / 10) ++ [Char.ofNat (48 + n % 10)]

/-- Python `str(n)` for a natural number. -/
def natStr (n : Nat) : List Char := natStrGo (n + 1) n

/-- Hexadecimal digit value (both cases), as accepted by percent-decoding. -/
def hexVal (c : Char) : Option Nat :=
  if 48 ≤ c.toNat && c.toNat ≤ 57 then some (c.toNat - 48)
  else if 97 ≤ c.toNat && c.toNat ≤ 102 then some (c.toNat - 87)
  else if 65 ≤ c.toNat && c.toNat ≤ 70 then some (c.toNat - 55)
  else none

/-- Modelled from the spec: tokenizer of `urllib.parse.unquote` — a `%`
followed by two hex digits becomes a byte, anything else passes through as
a literal character. -/
def pctTok : List Char → List (Sum Char Nat)
  | [] => []
  | c :: h1 :: h2 :: r2 =>
      if c == '%' then
        match hexVal h1, hexVal h2 with
        | some a, some b => Sum.inr (16 * a + b) :: pctTok r2
        | _, _ => Sum.inl c :: pctTok (h1 :: h2 :: r2)
      else Sum.inl c :: pctTok (h1 :: h2 :: r2)
  | c :: rest => Sum.inl c :: pctTok rest

/-- Group maximal runs of percent-decoded bytes (each run is decoded with
the requested codec, literals pass through). -/
def groupRuns (l : List (Sum Char Nat)) : List (Sum Char (List Nat)) :=
  l.foldr
    (fun x acc =>
      match x, acc with
      | Sum.inl c, _ => Sum.inl c :: acc
      | Sum.inr b, Sum.inr bs :: acc2 => Sum.inr (b :: bs) :: acc2
      | Sum.inr b, _ => Sum.inr [b] :: acc)
    []

/-- Strict UTF-8 decoder (rejects overlong forms, surrogates and
out-of-range sequences, as Python `errors='strict'` does). -/
def utf8Dec : List Nat → Option (List Char)
  | [] => some []
  | b :: rest =>
      if b < 128 then (utf8Dec rest).map (fun t => Char.ofNat b :: t)
      else if 194 ≤ b && b ≤ 223 then
        match rest with
        | c1 :: r2 =>
            if 128 ≤ c1 && c1 ≤ 191 then
              (utf8Dec r2).map (fun t =>
                Char.ofNat ((b - 192) * 64 + (c1 - 128)) :: t)
            else none
        | _ => none
      else if 224 ≤ b && b ≤ 239 then
        match rest with
        | c1 :: c2 :: r2 =>
            if (if b == 224 then 160 else 128) ≤ c1 &&
               c1 ≤ (if b == 237 then 159 else 191) &&
               128 ≤ c2 && c2 ≤ 191 then
              (utf8Dec r2).map (fun t =>
                Char.ofNat ((b - 224) * 4096 + (c1 - 128) * 64 + (c2 - 128)) :: t)
            else none
        | _ => none
      else if 240 ≤ b && b ≤ 244 then
        match rest with
        | c1 :: c2 :: c3 :: r2 =>
            if (if b == 240 then 144 else 128) ≤ c1 &&
               c1 ≤ (if b == 244 then 143 else 191) &&
               128 ≤ c2 && c2 ≤ 191 && 128 ≤ c3 && c3 ≤ 191 then
              (utf8Dec r2).map (fun t =>
                Char.ofNat ((b - 240) * 262144 + (c1 - 128) * 4096 +
                  (c2 - 128) * 64 + (c3 - 128)) :: t)
            else none
        | _ => none
      else none

/-- Decode the grouped pieces with a given byte-run decoder. -/
def decodePiecesWith (f : List Nat → Option (List Char)) :
    List (Sum Char (List Nat)) → Option (List Char)
  | [] => some []
  | Sum.inl c :: rest => (decodePiecesWith f rest).map (c :: ·)
  | Sum.inr bs :: rest => do
      let cs ← f bs
      let t ← decodePiecesWith f rest
      some (cs ++ t)

/-- Modelled from the spec: `urllib.parse.unquote(value, encoding, 'strict')`
— percent-decode, decoding byte runs with the named codec; a decode failure
raises `UnicodeDecodeError`, an unknown codec raises `LookupError`.  The
codec table is restricted to the charsets the spec discusses (utf-8 default,
ascii, latin-1). -/
def unquoteStrict (enc v : List Char) : Except PyErr (List Char) :=
  let e := pyLower enc
  if e == ("utf-8").toList || e == ("utf8").toList then
    match decodePiecesWith utf8Dec (groupRuns (pctTok v)) with
    | some r => .ok r
    | none => .error .unicodeDecodeError
  else if e == ("ascii").toList || e == ("us-ascii").toList then
    match decodePiecesWith
        (fun bs => if bs.all (· < 128) then some (bs.map Char.ofNat) else none)
        (groupRuns (pctTok v)) with
    | some r => .ok r
    | none => .error .unicodeDecodeError
  else if e == ("latin-1").toList || e == ("latin1").toList ||
      e == ("iso-8859-1").toList then
    match decodePiecesWith (fun bs => some (bs.map Char.ofNat))
        (groupRuns (pctTok v)) with
    | some r => .ok r
    | none => .error .unicodeDecodeError
  else .error .lookupError

/-! ## `parse_content_disposition` and `content_disposition_filename` -/

/-- Outcome of one iteration of the `while parts:` loop of
`parse_content_disposition`. -/
inductive PcdStep where
  | abort
  | skip
  | keep (kv : List Char × List Char)
  | keepDrop (kv : List Char × List Char)
  | raise (e : PyErr)
  deriving DecidableEq, Repr

/-- The body of one iteration of the `while parts:` loop of
`parse_content_disposition`: `abort` for its `return None, {}` exits, `skip`
for `continue`, `keep` for `params[key] = value`, `keepDrop` when the
quoted-merge branch additionally pops the next `;`-segment, `raise` where
the Python code raises.  The plain-parameter branch is modelled faithfully:
a quoted plain value never clears `failed`, so it aborts the whole parse. -/
def pcdClassify (item : List Char) (parts : List (List Char))
    (params : List (List Char × List Char)) : PcdStep :=
  if !item.contains '=' then .abort
  else
    let kv := splitFirst '=' item
    let key := pyStrip (pyLower kv.1)
    let value := pyLStrip kv.2
    if (List.lookup key params).isSome then .abort
    else if !is_token key then .skip
    else if is_continuous_param key then
      match pyIsQuoted value with
      | .error e => .raise e
      | .ok true => .keep (key, unescape (innerQ value))
      | .ok false =>
          if !is_token value then .skip else .keep (key, value)
    else if is_extended_param key then
      if is_rfc5987 value then
        let p1 := splitFirst apoC value
        let p2 := splitFirst apoC p1.2
        let enc := if p1.1.isEmpty then ("utf-8").toList else p1.1
        match unquoteStrict enc p2.2 with
        | .error .unicodeDecodeError => .skip
        | .error e => .raise e
        | .ok v3 => .keep (key, v3)
      else .skip
    else
      match pyIsQuoted value with
      | .error e => .raise e
      | .ok true => .abort
      | .ok false =>
          if is_token value then .keep (key, value)
          else
            match parts with
            | [] => .abort
            | p0 :: _ =>
                let value2 := value ++ ';' :: p0
                match pyIsQuoted value2 with
                | .error e => .raise e
                | .ok true =>
                    .keepDrop (key, unescape ((innerQ value2).dropWhile
                      (fun c => c == bslashC || c == slashC)))
                | .ok false => .abort

/-- The `while parts:` loop of `parse_content_disposition`, driven by
`pcdClassify`.  Returns `none` for the loop's `return None, {}` exits,
`some params` when the loop completes, and `Except.error` where the Python
code raises.  (`keepDrop` with empty remaining parts cannot occur, since the
merge branch requires a next segment.) -/
def pcdLoop : List (List Char) → List (List Char × List Char) →
    Except PyErr (Option (List (List Char × List Char)))
  | [], params => .ok (some params)
  | item :: parts, params =>
      match pcdClassify item parts params with
      | .abort => .ok none
      | .skip => pcdLoop parts params
      | .keep kv => pcdLoop parts (params ++ [kv])
      | .keepDrop kv =>
          match parts with
          | [] => .ok none
          | _ :: parts2 => pcdLoop parts2 (params ++ [kv])
      | .raise e => .error e

/-- `parse_content_disposition(header)`: `(disposition-type or none, params)`.
An empty header or a non-token disposition type yields `(none, [])`; so does
any `return None, {}` exit of the parameter loop. -/
def parse_content_disposition (header : List Char) :
    Except PyErr (Option (List Char) × List (List Char × List Char)) :=
  if header.isEmpty then .ok (none, [])
  else
    match splitAll ';' header with
    | [] => .ok (none, [])
    | disptype :: parts =>
        if !is_token disptype then .ok (none, [])
        else
          match pcdLoop parts [] with
          | .error e => .error e
          | .ok none => .ok (none, [])
          | .ok (some ps) => .ok (some (pyLower disptype), ps)

/-- Python string `<`: lexicographic comparison by code point. -/
def lexLtS : List Char → List Char → Bool
  | _, [] => false
  | [], _ :: _ => true
  | a :: as, b :: bs =>
      if a.toNat < b.toNat then true
      else if a == b then lexLtS as bs
      else false

/-- Python tuple `<` on `(key, value)` string pairs. -/
def pairLt (x y : List Char × List Char) : Bool :=
  if lexLtS x.1 y.1 then true
  else if x.1 == y.1 then lexLtS x.2 y.2
  else false

/-- Non-strict pair order used for sorting: `x` may come before `y`. -/
def pairLe (x y : List Char × List Char) : Bool := !pairLt y x

/-- Stable ascending insertion of a pair. -/
def pyInsert (x : List Char × List Char) :
    List (List Char × List Char) → List (List Char × List Char)
  | [] => [x]
  | y :: ys => if pairLe x y then x :: y :: ys else y :: pyInsert x ys

/-- Python `sorted` on `(key, value)` pairs: stable ascending sort (modelled
by insertion sort; the keys it is applied to are distinct, for which every
correct sort coincides). -/
def pySorted (l : List (List Char × List Char)) :
    List (List Char × List Char) :=
  l.foldr pyInsert []

/-- The `for num, (key, value) in enumerate(fnparams)` loop of
`content_disposition_filename`: take the value while the key's tail after
the first `*` (dropping one trailing `*`) equals `str(num)`, else break. -/
def collectCont : Nat → List (List Char × List Char) → List (List Char)
  | _, [] => []
  | num, (k, v) :: rest =>
      let tail0 := (splitFirst '*' k).2
      let tail := if tail0.getLast? == some '*' then tail0.dropLast else tail0
      if tail == natStr num then v :: collectCont (num + 1) rest else []

/-- `content_disposition_filename(params, name)`: prefer an exact `name*`
entry, then an exact `name` entry, else sort the `filename*`-prefixed
entries (note: the literal prefix `filename*`, regardless of `name`) as
`(key, value)` pairs, assemble the enumerate-loop's segments, and
percent-decode a `charset'lang'`-marked result.  An assembled value with a
single apostrophe makes the 3-way unpacking of `value.split("'", 2)` raise
`ValueError`; a failing decode propagates. -/
def content_disposition_filename (params : List (List Char × List Char))
    (name : List Char) : Except PyErr (Option (List Char)) :=
  let nameSuf := name ++ ['*']
  if params.isEmpty then .ok none
  else
    match List.lookup nameSuf params with
    | some v => .ok (some v)
    | none =>
        match List.lookup name params with
        | some v => .ok (some v)
        | none =>
            let fn := pySorted (params.filter
              (fun kv => List.isPrefixOf (("filename").toList ++ ['*']) kv.1))
            let segs := collectCont 0 fn
            if segs.isEmpty then .ok none
            else
              let value := segs.flatten
              if value.contains apoC then
                if 2 ≤ value.count apoC then
                  let p1 := splitFirst apoC value
                  let p2 := splitFirst apoC p1.2
                  let enc := if p1.1.isEmpty then ("utf-8").toList else p1.1
                  match unquoteStrict enc p2.2 with
                  | .error e => .error e
                  | .ok r => .ok (some r)
                else .error .valueError
              else .ok (some value)

/-- Modelled from the spec (§4.2, claim C5): `resolve_filename` "prefers an
exact `filename*` entry, then an exact `filename` entry, and otherwise
assembles the continuation segments `filename*0`, `filename*1`, ...
concatenated in strictly increasing numeric order starting at 0, stopping at
the first gap", percent-decoding an assembled value that still carries a
leading `charset'lang'` marker.  Used only to exhibit where the code
diverges from this reading. -/
def specSegs (params : List (List Char × List Char)) (name : List Char) :
    Nat → Nat → List (List Char)
  | 0, _ => []
  | fuel + 1, k =>
      match List.lookup (name ++ ['*'] ++ natStr k) params with
      | some v => v :: specSegs params name fuel (k + 1)
      | none => []

/-- Modelled from the spec: the filename resolution rule as the claim states
it (see `specSegs`). -/
def resolveFilenameSpec (params : List (List Char × List Char))
    (name : List Char) : Option (List Char) :=
  match List.lookup (name ++ ['*']) params with
  | some v => some v
  | none =>
      match List.lookup name params with
      | some v => some v
      | none =>
          let segs := specSegs params name (params.length + 1) 0
          if segs.isEmpty then none
          else
            let value := segs.flatten
            if value.contains apoC then
              let p1 := splitFirst apoC value
              let p2 := splitFirst apoC p1.2
              let enc := if p1.1.isEmpty then ("utf-8").toList else p1.1
              (unquoteStrict enc p2.2).toOption
            else some value

/-- C4 counterexample: an invalid (non-token) parameter key does NOT make
the whole header unparseable — `parse_content_disposition` silently skips it
(`continue`) and returns a partial result mixing the remaining valid
parameter with the skipped invalid one: `form-data; @=1; b=2` parses to
`(form-data, {b: 2})`, not `(none, empty)`. -/
theorem c4_all_or_nothing_cex :
    parse_content_disposition (("form-data; @=1; b=2").toList) =
      .ok (some (("form-data").toList), [(("b").toList, ("2").toList)]) ∧
    parse_content_disposition (("form-data; @=1; b=2").toList) ≠
      .ok (none, []) := by
  exact ⟨by decide, by decide⟩

/-- C4 (amended): a duplicate parameter name or an unparseable plain
parameter value (such as an unterminated quoted value) makes the entire
header unparseable (`(none, empty)`), but an invalid (non-token) parameter
key and an invalid extended (RFC 5987) value are silently skipped, so the
parse can return a partial result; in particular `form-data; a=1; a=2`
parses to `(none, empty)`.  Conjuncts: the duplicate example; duplicates
abort the loop; invalid keys are skipped; invalid extended values are
skipped; an unterminated quoted plain value (with no merge partner) aborts
the loop. -/
theorem c4_all_or_nothing_amended :
    (parse_content_disposition (("form-data; a=1; a=2").toList) =
      .ok (none, [])) ∧
    (∀ parts params item, item.contains '=' = true →
      (List.lookup (pyStrip (pyLower (splitFirst '=' item).1)) params).isSome
        = true →
      pcdLoop (item :: parts) params = .ok none) ∧
    (∀ parts params item, item.contains '=' = true →
      (List.lookup (pyStrip (pyLower (splitFirst '=' item).1)) params).isSome
        = false →
      is_token (pyStrip (pyLower (splitFirst '=' item).1)) = false →
      pcdLoop (item :: parts) params = pcdLoop parts params) ∧
    (∀ parts params item, item.contains '=' = true →
      (List.lookup (pyStrip (pyLower (splitFirst '=' item).1)) params).isSome
        = false →
      is_token (pyStrip (pyLower (splitFirst '=' item).1)) = true →
      is_continuous_param (pyStrip (pyLower (splitFirst '=' item).1)) = false →
      is_extended_param (pyStrip (pyLower (splitFirst '=' item).1)) = true →
      is_rfc5987 (pyLStrip (splitFirst '=' item).2) = false →
      pcdLoop (item :: parts) params = pcdLoop parts params) ∧
    (∀ params item t, item.contains '=' = true →
      (List.lookup (pyStrip (pyLower (splitFirst '=' item).1)) params).isSome
        = false →
      is_token (pyStrip (pyLower (splitFirst '=' item).1)) = true →
      is_continuous_param (pyStrip (pyLower (splitFirst '=' item).1)) = false →
      is_extended_param (pyStrip (pyLower (splitFirst '=' item).1)) = false →
      pyLStrip (splitFirst '=' item).2 = quoteC :: t →
      ((quoteC :: t).getLastD quoteC == quoteC) = false →
      pcdLoop [item] params = .ok none) := by
  refine ⟨by decide, ?_, ?_, ?_, ?_⟩
  · intro parts params item hc hl
    have hcl : pcdClassify item parts params = .abort := by
      simp [pcdClassify, hc, hl]
    simp [pcdLoop, hcl]
  · intro parts params item hc hl ht
    have hc' : '=' ∈ item := by simpa using hc
    have hcl : pcdClassify item parts params = .skip := by
      simp [pcdClassify, hc', hl, ht]
    simp [pcdLoop, hcl]
  · intro parts params item hc hl ht hcont hext hrfc
    have hc' : '=' ∈ item := by simpa using hc
    have hcl : pcdClassify item parts params = .skip := by
      simp [pcdClassify, hc', hl, ht, hcont, hext, hrfc]
    simp [pcdLoop, hcl]
  · intro params item t hc hl ht hcont hext hv hlast
    have hc' : '=' ∈ item := by simpa using hc
    have htok : is_token (quoteC :: t) = false := by
      simp [is_token, tcharChar, quoteC, tcharB]
    have hcl : pcdClassify item [] params = .abort := by
      simp only [pcdClassify, hc', hl, ht, hcont, hext, hv, pyIsQuoted, htok]
      simp
      cases h2 : ((quoteC :: t).getLast?.getD quoteC == quoteC) <;>
        exact fun _ => rfl
    simp [pcdLoop, hcl]

/-- C4 witness: instantiating the amended conjuncts — a duplicate key
aborts; an invalid key is skipped; an invalid extended value is skipped; an
unterminated quoted plain value aborts. -/
theorem c4_all_or_nothing_witness :
    pcdLoop [("a=2").toList] [(("a").toList, ("1").toList)] = .ok none ∧
    pcdLoop [("@=1").toList, ("b=2").toList] [] =
      pcdLoop [("b=2").toList] [] ∧
    pcdLoop [("filename*=bad").toList] [] = pcdLoop [] [] ∧
    pcdLoop [("a=" ++ "\"abc").toList] [] = .ok none := by
  refine ⟨?_, ?_, ?_, ?_⟩
  · exact c4_all_or_nothing_amended.2.1 [] [(("a").toList, ("1").toList)]
      (("a=2").toList) (by decide) (by decide)
  · exact c4_all_or_nothing_amended.2.2.1 [("b=2").toList] []
      (("@=1").toList) (by decide) (by decide) (by decide)
  · exact c4_all_or_nothing_amended.2.2.2.1 [] []
      (("filename*=bad").toList) (by decide) (by decide) (by decide)
      (by decide) (by decide) (by decide)
  · exact c4_all_or_nothing_amended.2.2.2.2 []
      (("a=" ++ "\"abc").toList) (("abc").toList) (by decide) (by decide)
      (by decide) (by decide) (by decide) (by decide) (by decide)

/-! ## Helper lemmas for filename-continuation resolution -/

/-- The literal key prefix `filename*` used by
`content_disposition_filename`'s continuation scan. -/
def fnPre : List Char := ("filename").toList ++ ['*']

theorem natStr_lt10 {m : Nat} (h : m < 10) :
    natStr m = [Char.ofNat (48 + m)] := by
  simp [natStr, natStrGo, h]

theorem natStr_ne_nil (m : Nat) : natStr m ≠ [] := by
  by_cases h : m < 10 <;> simp [natStr, natStrGo, h]

theorem beq_false_of_length_ne {a b : List Char} (h : a.length ≠ b.length) :
    (a == b) = false := by
  cases hab : a == b
  · rfl
  · exact absurd (congrArg List.length (eq_of_beq hab)) h

theorem isPrefixOf_append (a b : List Char) :
    List.isPrefixOf a (a ++ b) = true := by
  induction a with
  | nil => simp [List.isPrefixOf]
  | cons c t ih => simp [List.isPrefixOf, ih]

theorem lookup_none_of_beq_false {k : List Char}
    {ps : List (List Char × List Char)}
    (h : ∀ kv ∈ ps, (k == kv.1) = false) : List.lookup k ps = none := by
  induction ps with
  | nil => rfl
  | cons kv t ih =>
      obtain ⟨a, b⟩ := kv
      rw [List.lookup]
      rw [h (a, b) (by simp)]
      exact ih (fun x hx => h x (by simp [hx]))

theorem keyLexFacts (i j : Nat) (hij : i < j) (hj : j ≤ 9) :
    lexLtS (fnPre ++ natStr j) (fnPre ++ natStr i) = false ∧
    ((fnPre ++ natStr j) == (fnPre ++ natStr i)) = false := by
  have hi : i ≤ 9 := by omega
  interval_cases i <;> interval_cases j <;> first | decide | omega

theorem keyPairLe (i j : Nat) (v w : List Char) (hij : i < j) (hj : j ≤ 9) :
    pairLe (fnPre ++ natStr i, v) (fnPre ++ natStr j, w) = true := by
  obtain ⟨h1, h2⟩ := keyLexFacts i j hij hj
  simp [pairLe, pairLt, h1, h2]

theorem pyInsert_head (x y : List Char × List Char)
    (ys : List (List Char × List Char)) (h : pairLe x y = true) :
    pyInsert x (y :: ys) = x :: y :: ys := by
  simp [pyInsert, h]

theorem pySorted_eq_self :
    ∀ l : List (List Char × List Char),
      l.Pairwise (fun a b => pairLe a b = true) → pySorted l = l := by
  intro l h
  induction l with
  | nil => rfl
  | cons x xs ih =>
      have hx : ∀ b ∈ xs, pairLe x b = true := (List.pairwise_cons.mp h).1
      have hxs := (List.pairwise_cons.mp h).2
      have : pySorted (x :: xs) = pyInsert x (pySorted xs) := rfl
      rw [this, ih hxs]
      cases xs with
      | nil => rfl
      | cons y ys => exact pyInsert_head x y ys (hx y (by simp))

theorem splitFirst_fnPre (t : List Char) :
    splitFirst '*' (fnPre ++ t) = (("filename").toList, t) := rfl

theorem tailNotStar {m : Nat} (h : m ≤ 9) :
    (([Char.ofNat (48 + m)] : List Char).getLast? == some '*') = false := by
  interval_cases m <;> decide

theorem collectCont_canon (v : Nat → List Char) :
    ∀ (k m : Nat), m + k ≤ 10 →
      collectCont m ((List.range' m k).map
        (fun i => (fnPre ++ natStr i, v i))) = (List.range' m k).map v := by
  intro k
  induction k with
  | zero => intro m _; simp [collectCont]
  | succ k ih =>
      intro m hmk
      have hm10 : m < 10 := by omega
      rw [List.range'_succ]
      simp only [List.map_cons]
      rw [collectCont, splitFirst_fnPre]
      simp only
      rw [natStr_lt10 hm10]
      rw [tailNotStar (by omega)]
      simp only [if_false, Bool.false_eq_true]
      rw [← natStr_lt10 hm10]
      simp only [beq_self_eq_true, if_true]
      rw [ih (m + 1) (by omega)]

/-- C5 counterexample: with the eleven gap-free continuation segments
`filename*0 ... filename*10` (values `A ... K`), the claim's
strictly-increasing-numeric-order assembly yields `ABCDEFGHIJK`, but the
code sorts keys lexicographically (`filename*10` sorts between `filename*1`
and `filename*2`), so the enumerate check breaks at position 2 and only `AB`
is resolved. -/
theorem c5_filename_resolution_cex :
    content_disposition_filename
      ((List.range 11).map (fun i => (fnPre ++ natStr i, [Char.ofNat (65 + i)])))
      (("filename").toList) = .ok (some (("AB").toList)) ∧
    resolveFilenameSpec
      ((List.range 11).map (fun i => (fnPre ++ natStr i, [Char.ofNat (65 + i)])))
      (("filename").toList) = some (("ABCDEFGHIJK").toList) ∧
    (("AB").toList : List Char) ≠ ("ABCDEFGHIJK").toList := by
  exact ⟨by decide, by decide, by decide⟩

/-- C5 (amended): `content_disposition_filename` prefers an exact
`filename*` entry, then an exact `filename` entry, and otherwise assembles
the continuation segments sorted lexicographically by key, taking the n-th
sorted segment only while its numeric tail equals n — which coincides with
strictly increasing numeric order starting at 0, stopping at the first gap,
whenever all segment indices are single-digit (at most ten segments; with
eleven or more, lexicographic order diverges from numeric order; see the
counterexample).  An assembled value still carrying a leading
`charset'lang'` marker is percent-decoded with that charset.  Conjuncts:
the `filename*` preference; the `filename` preference; gap-free single-digit
assembly; the charset decode of an assembled value. -/
theorem c5_filename_resolution_amended :
    (∀ ps v, ps ≠ [] →
      List.lookup (("filename").toList ++ ['*']) ps = some v →
      content_disposition_filename ps (("filename").toList) = .ok (some v)) ∧
    (∀ ps v, ps ≠ [] →
      List.lookup (("filename").toList ++ ['*']) ps = none →
      List.lookup (("filename").toList) ps = some v →
      content_disposition_filename ps (("filename").toList) = .ok (some v)) ∧
    (∀ (n : Nat) (v : Nat → List Char), 1 ≤ n → n ≤ 10 →
      ((List.range n).map v).flatten.contains apoC = false →
      content_disposition_filename
        ((List.range n).map (fun i => (fnPre ++ natStr i, v i)))
        (("filename").toList) = .ok (some ((List.range n).map v).flatten)) ∧
    (∀ t r, t.count apoC = 0 →
      unquoteStrict (("utf-8").toList) t = .ok r →
      content_disposition_filename
        [(fnPre ++ natStr 0,
          ("utf-8").toList ++ apoC :: ("en").toList ++ apoC :: t)]
        (("filename").toList) = .ok (some r)) := by
  refine ⟨?_, ?_, ?_, ?_⟩
  · intro ps v hne hlook
    have hne' : ps.isEmpty = false := by
      simpa [List.isEmpty_iff] using hne
    simp only [content_disposition_filename, hne', Bool.false_eq_true,
      if_false, hlook]
  · intro ps v hne hl1 hl2
    have hne' : ps.isEmpty = false := by
      simpa [List.isEmpty_iff] using hne
    simp only [content_disposition_filename, hne', Bool.false_eq_true,
      if_false, hl1, hl2]
  · intro n v hn1 hn10 hnoapo
    have hne : ((List.range n).map
        (fun i => (fnPre ++ natStr i, v i))).isEmpty = false := by
      simp [List.isEmpty_iff, List.range_eq_nil]
      omega
    have hpre9 : (fnPre : List Char).length = 9 := by decide
    have hlen : ∀ i, (fnPre ++ natStr i).length ≥ 10 := by
      intro i
      have h1 : (natStr i).length ≥ 1 :=
        List.length_pos.mpr (natStr_ne_nil i)
      simp only [List.length_append, hpre9]
      omega
    have hl1 : List.lookup (("filename").toList ++ ['*'])
        ((List.range n).map (fun i => (fnPre ++ natStr i, v i))) = none := by
      refine lookup_none_of_beq_false ?_
      intro kv hkv
      obtain ⟨i, _, rfl⟩ := List.mem_map.mp hkv
      refine beq_false_of_length_ne ?_
      have := hlen i
      show ((("filename").toList ++ ['*'] : List Char)).length ≠
        (fnPre ++ natStr i).length
      rw [show ((("filename").toList ++ ['*'] : List Char)).length = 9 from by
        decide]
      omega
    have hl2 : List.lookup (("filename").toList)
        ((List.range n).map (fun i => (fnPre ++ natStr i, v i))) = none := by
      refine lookup_none_of_beq_false ?_
      intro kv hkv
      obtain ⟨i, _, rfl⟩ := List.mem_map.mp hkv
      refine beq_false_of_length_ne ?_
      have := hlen i
      show ((("filename").toList : List Char)).length ≠
        (fnPre ++ natStr i).length
      rw [show ((("filename").toList : List Char)).length = 8 from by decide]
      omega
    have hfilter : ((List.range n).map
          (fun i => (fnPre ++ natStr i, v i))).filter
        (fun kv => List.isPrefixOf (("filename").toList ++ ['*']) kv.1) =
        (List.range n).map (fun i => (fnPre ++ natStr i, v i)) := by
      refine List.filter_eq_self.mpr ?_
      intro kv hkv
      obtain ⟨i, _, rfl⟩ := List.mem_map.mp hkv
      exact isPrefixOf_append fnPre (natStr i)
    have hpw : ((List.range n).map
        (fun i => (fnPre ++ natStr i, v i))).Pairwise
        (fun a b => pairLe a b = true) := by
      refine List.pairwise_map.mpr ?_
      refine (List.pairwise_lt_range n).imp_of_mem ?_
      intro a b _ hb hab
      exact keyPairLe a b (v a) (v b) hab
        (by have := List.mem_range.mp hb; omega)
    have hsort := pySorted_eq_self _ hpw
    have hcollect : collectCont 0 ((List.range n).map
        (fun i => (fnPre ++ natStr i, v i))) = (List.range n).map v := by
      rw [List.range_eq_range']
      exact collectCont_canon v n 0 (by omega)
    have hsegne : ((List.range n).map v).isEmpty = false := by
      simp [List.isEmpty_iff, List.range_eq_nil]
      omega
    simp only [content_disposition_filename, hne, Bool.false_eq_true,
      if_false, hl1, hl2, hfilter, hsort, hcollect, hsegne, hnoapo]
  · intro t r hapo hdec
    have hcount : ((("utf-8").toList ++ apoC :: ("en").toList ++
        apoC :: t).count apoC) = 2 := by
      simp [List.count_append, List.count_cons, hapo]
      decide
    have hmem : ((("utf-8").toList ++ apoC :: ("en").toList ++
        apoC :: t).contains apoC) = true := by
      simp [List.elem_eq_mem]
    have hl1 : List.lookup (("filename").toList ++ ['*'])
        [(fnPre ++ natStr 0,
          ("utf-8").toList ++ apoC :: ("en").toList ++ apoC :: t)] = none := by
      refine lookup_none_of_beq_false ?_
      intro kv hkv
      obtain rfl := List.mem_singleton.mp hkv
      show ((("filename").toList ++ ['*'] : List Char) ==
        fnPre ++ natStr 0) = false
      decide
    have hl2 : List.lookup (("filename").toList)
        [(fnPre ++ natStr 0,
          ("utf-8").toList ++ apoC :: ("en").toList ++ apoC :: t)] = none := by
      refine lookup_none_of_beq_false ?_
      intro kv hkv
      obtain rfl := List.mem_singleton.mp hkv
      show ((("filename").toList : List Char) == fnPre ++ natStr 0) = false
      decide
    have hfn : pySorted ([(fnPre ++ natStr 0,
          ("utf-8").toList ++ apoC :: ("en").toList ++ apoC :: t)].filter
        (fun kv => List.isPrefixOf (("filename").toList ++ ['*']) kv.1)) =
        [(fnPre ++ natStr 0,
          ("utf-8").toList ++ apoC :: ("en").toList ++ apoC :: t)] := rfl
    have hcoll : collectCont 0 [(fnPre ++ natStr 0,
          ("utf-8").toList ++ apoC :: ("en").toList ++ apoC :: t)] =
        [("utf-8").toList ++ apoC :: ("en").toList ++ apoC :: t] := rfl
    have hsplit1 : splitFirst apoC (("utf-8").toList ++ apoC ::
        ("en").toList ++ apoC :: t) =
        (("utf-8").toList, ("en").toList ++ apoC :: t) := rfl
    have hsplit2 : splitFirst apoC (("en").toList ++ apoC :: t) =
        (("en").toList, t) := rfl
    simp only [content_disposition_filename, List.isEmpty_cons,
      Bool.false_eq_true, if_false, hl1, hl2, hfn, hcoll,
      List.flatten_cons, List.flatten_nil, List.append_nil, hmem, hcount,
      if_true, hsplit1, hsplit2]
    have hdec2 : unquoteStrict (['u', 't', 'f', '-', '8'] : List Char) t =
      Except.ok r := hdec
    simp [hdec2]

/-- C5 witness: the amended preferences and assembly at concrete inputs —
an exact `filename*` entry wins; an exact `filename` entry wins next;
`filename*0=foo; filename*1=bar` assembles to `foobar`; a
`utf-8'en'`-marked assembled value is percent-decoded. -/
theorem c5_filename_resolution_witness :
    content_disposition_filename
      [((("filename").toList ++ ['*']), ("x").toList)]
      (("filename").toList) = .ok (some (("x").toList)) ∧
    content_disposition_filename [((("filename").toList), ("y").toList)]
      (("filename").toList) = .ok (some (("y").toList)) ∧
    content_disposition_filename
      ((List.range 2).map (fun i => (fnPre ++ natStr i,
        if i == 0 then ("foo").toList else ("bar").toList)))
      (("filename").toList) =
      .ok (some ((List.range 2).map (fun i =>
        if i == 0 then ("foo").toList else ("bar").toList)).flatten) ∧
    content_disposition_filename
      [(fnPre ++ natStr 0,
        ("utf-8").toList ++ apoC :: ("en").toList ++ apoC :: ("%41b").toList)]
      (("filename").toList) = .ok (some (("Ab").toList)) := by
  refine ⟨?_, ?_, ?_, ?_⟩
  · exact c5_filename_resolution_amended.1 _ _ (by decide) (by decide)
  · exact c5_filename_resolution_amended.2.1 _ _ (by decide) (by decide)
      (by decide)
  · exact c5_filename_resolution_amended.2.2.1 2 _ (by decide) (by decide)
      (by decide)
  · exact c5_filename_resolution_amended.2.2.2 (("%41b").toList)
      (("Ab").toList) (by decide) (by decide)

/-! ## Payload construction and `MultipartWriter.append` / `append_payload`

The header container (`imultidict` from the missing `dereaddons_local`
module) is modelled from the spec (§6) as an ordered case-insensitive
multi-value map: an association list with case-insensitive key matching. -/

/-- Modelled from the spec: header-name constants from the missing `hdrs`
module. -/
def CONTENT_TYPE : List Char := ("Content-Type").toList

/-- Modelled from the spec: `Content-Encoding` header name. -/
def CONTENT_ENCODING : List Char := ("Content-Encoding").toList

/-- Modelled from the spec: `Content-Transfer-Encoding` header name. -/
def CONTENT_TRANSFER_ENCODING : List Char :=
  ("Content-Transfer-Encoding").toList

/-- Modelled from the spec: `Content-Length` header name. -/
def CONTENT_LENGTH : List Char := ("Content-Length").toList

/-- Modelled from the spec: `Content-Disposition` header name. -/
def CONTENT_DISPOSITION : List Char := ("Content-Disposition").toList

/-- Header maps: ordered multi-value association lists. -/
abbrev Headers := List (List Char × List Char)

/-- Case-insensitive key membership in an `imultidict`. -/
def containsCI (h : Headers) (k : List Char) : Bool :=
  h.any (fun kv => pyLower kv.1 == pyLower k)

/-- Case-insensitive first-value lookup in an `imultidict`. -/
def lookupCI (h : Headers) (k : List Char) : Option (List Char) :=
  (h.find? (fun kv => pyLower kv.1 == pyLower k)).map (fun kv => kv.2)

/-- Modelled from the spec: `imultidict.__setitem__` (used on claim paths
only with an absent key, where it appends the entry). -/
def imset (h : Headers) (k v : List Char) : Headers := h ++ [(k, v)]

/-- Modelled from the spec: `imultidict.update` — §4.5 says supplied headers
are layered onto existing ones without overwriting; modelled as appending
the supplied entries. -/
def imupdate (h supplied : Headers) : Headers := h ++ supplied

/-- The payload's `headers` attribute: `unassigned` models an attribute the
constructor never wrote (reading it raises `AttributeError`); `assigned`
holds the Python value (possibly `None`). -/
inductive HAttr where
  | unassigned
  | assigned (h : Option Headers)
  deriving DecidableEq, Repr

/-- The `content_type` constructor argument: the `sentinel` default or an
explicitly passed value (possibly `None`). -/
inductive CTArg where
  | sentinel
  | given (v : Option (List Char))
  deriving DecidableEq, Repr

/-- A payload instance: the body value, the `headers` attribute, the
misspelled `headrs` attribute written by the constructor's nonempty-headers
branch, the stored `_content_type`, the filename, and the `_size`. -/
structure PyPayload where
  value : List Nat
  headersAttr : HAttr
  headrs : Option Headers
  contentTypeF : Option (List Char)
  filename : Option (List Char)
  size : Option Nat
  deriving DecidableEq, Repr

/-- Resolve the `content_type` argument to the stored `_content_type`
(`sentinel` becomes `None`). -/
def ctFinal : CTArg → Option (List Char)
  | .sentinel => none
  | .given v => v

/-- `payload_superclass.__init__`: with a non-empty headers mapping it
assigns the misspelled attribute `headrs` and never assigns `headers`
(leaving it unassigned), taking `content_type` from the mapping when the
argument is the sentinel; otherwise it assigns `headers = None`.  `_size`
starts as `None`. -/
def payload_superclass_init (value : List Nat) (headers : Option Headers)
    (contentType : CTArg) (filename : Option (List Char)) : PyPayload :=
  match headers with
  | some hs =>
      if hs.isEmpty then
        { value, headersAttr := .assigned none, headrs := none,
          contentTypeF := ctFinal contentType, filename, size := none }
      else
        let ct2 :=
          match contentType, lookupCI hs CONTENT_TYPE with
          | .sentinel, some v => CTArg.given (some v)
          | _, _ => contentType
        { value, headersAttr := .unassigned, headrs := some hs,
          contentTypeF := ctFinal ct2, filename, size := none }
  | none =>
      { value, headersAttr := .assigned none, headrs := none,
        contentTypeF := ctFinal contentType, filename, size := none }

/-- `BytesPayload.__init__` as reached through
`create_payload(data, headers=headers)`: `content_type` defaults to
`application/octet-stream` (absent from kwargs), and `_size` is set to the
value's length. -/
def bytesPayloadInit (v : List Nat) (headers : Headers) : PyPayload :=
  let p := payload_superclass_init v (some headers)
    (.given (some (("application/octet-stream").toList))) none
  { p with size := some v.length }

/-- Modelled from the spec: the external content-type-by-extension guesser
(`mimetypes.guess_type`), consulted only when no explicit content type was
supplied and a filename is present; unused on the claim paths. -/
def guessContentType (_fn : List Char) : Option (List Char) := none

/-- The `content_type` property of `payload_superclass`. -/
def contentTypeProp (p : PyPayload) : List Char :=
  match p.contentTypeF with
  | some ct => ct
  | none =>
      match p.filename with
      | some fn =>
          match guessContentType fn with
          | some m => m
          | none => ("application/octet-stream").toList
      | none => ("application/octet-stream").toList

/-- UTF-8 encoding of one character (for `str.encode('utf-8')` of the
rendered header block). -/
def utf8Char (c : Char) : List Nat :=
  let n := c.toNat
  if n < 128 then [n]
  else if n < 2048 then [192 + n / 64, 128 + n % 64]
  else if n < 65536 then [224 + n / 4096, 128 + (n / 64) % 64, 128 + n % 64]
  else [240 + n / 262144, 128 + (n / 4096) % 64, 128 + (n / 64) % 64,
    128 + n % 64]

/-- `str.encode('utf-8')`. -/
def strUtf8 (s : List Char) : List Nat := s.flatMap utf8Char

/-- The header-block rendering of `append_payload`:
`''.join(f'{k}: {v}\r\n' for k, v in headers.items()).encode('utf-8') +
b'\r\n'`. -/
def headerBytes (h : Headers) : List Nat :=
  (h.flatMap (fun kv => strUtf8 kv.1 ++ [58, 32] ++ strUtf8 kv.2 ++ [13, 10]))
    ++ [13, 10]

/-- A `MultipartWriter`: boundary bytes and the ordered sequence of recorded
parts `(payload, rendered_header_bytes, content_encoding,
transfer_encoding)`. -/
structure PyWriter where
  boundary : List Nat
  parts : List (PyPayload × List Nat × Option (List Char) × Option (List Char))
  headers : Headers
  deriving DecidableEq, Repr

/-- `MultipartWriter.append_payload`: evaluates
`CONTENT_TYPE not in payload.headers` (an `AttributeError` if the attribute
was never assigned, a `TypeError` if it is `None`), ensures a Content-Type
header, validates Content-Encoding and Content-Transfer-Encoding, sets
Content-Length when the size is known and no encoding is active, renders the
header block, and records the part. -/
def append_payload (w : PyWriter) (p : PyPayload) :
    Except PyErr (PyWriter × PyPayload) :=
  match p.headersAttr with
  | .unassigned => .error .attributeError
  | .assigned none => .error .typeError
  | .assigned (some h0) =>
      let h1 := if containsCI h0 CONTENT_TYPE then h0
        else imset h0 CONTENT_TYPE (contentTypeProp p)
      let encRes : Except PyErr (Option (List Char)) :=
        match lookupCI h1 CONTENT_ENCODING with
        | none => .ok none
        | some e =>
            let el := pyLower e
            if el == ("deflate").toList || el == ("gzip").toList ||
                el == ("br").toList then .ok (some el)
            else if el == [] || el == ("identity").toList then .ok none
            else .error .runtimeError
      match encRes with
      | .error e => .error e
      | .ok enc =>
          let teRes : Except PyErr (Option (List Char)) :=
            match lookupCI h1 CONTENT_TRANSFER_ENCODING with
            | none => .ok none
            | some e =>
                let el := pyLower e
                if el == [] then .ok none
                else if el == ("base64").toList ||
                    el == ("quoted-printable").toList then .ok (some el)
                else if el == ("binary").toList then .ok none
                else .error .runtimeError
          match teRes with
          | .error e => .error e
          | .ok te =>
              let h2 := if p.size.isSome && enc.isNone && te.isNone then
                  imset h1 CONTENT_LENGTH (natStr (p.size.getD 0))
                else h1
              let p2 := { p with headersAttr := .assigned (some h2) }
              .ok ({ w with
                parts := w.parts ++ [(p2, headerBytes h2, enc, te)] }, p2)

/-- The payload branch of `MultipartWriter.append`: it reads `obj.headers`
(an `AttributeError` when unassigned), assigns or layer-merges the supplied
headers onto it, and returns `None` — it never calls `append_payload`, so
the writer's part list is untouched. -/
def append_obj_payload (w : PyWriter) (p : PyPayload) (headers : Headers) :
    Except PyErr (PyWriter × PyPayload × Option PyPayload) :=
  match p.headersAttr with
  | .unassigned => .error .attributeError
  | .assigned none =>
      .ok (w, { p with headersAttr := .assigned (some headers) }, none)
  | .assigned (some h) =>
      .ok (w, { p with headersAttr := .assigned (some (imupdate h headers)) },
        none)

/-- The raw-bytes branch of `MultipartWriter.append`:
`append_payload(create_payload(obj, headers=headers))` with
`headers = imultidict()` when the caller passed none. -/
def append_bytes (w : PyWriter) (v : List Nat) (headers : Headers) :
    Except PyErr (PyWriter × PyPayload) :=
  append_payload w (bytesPayloadInit v headers)

/-- C1: the round-trip cannot even begin — appending a plain bytes payload
(known size 3, no transforms) fails before any output is produced.  With the
default empty headers mapping the constructor assigns `headers = None` and
`append_payload` evaluates `CONTENT_TYPE not in payload.headers`, raising
`TypeError`; with a non-empty headers mapping the constructor stores the
mapping under the misspelled attribute `headrs`, so the same membership test
raises `AttributeError`.  No part is ever recorded, so the writer emits
nothing to read back. -/
theorem c1_roundtrip_append_bytes_fails :
    append_bytes ⟨[98], [], []⟩ [97, 98, 99] [] = .error .typeError ∧
    append_payload ⟨[98], [], []⟩ (payload_superclass_init [104, 105]
        (some [(CONTENT_TYPE, ("text/plain").toList)]) .sentinel none) =
      .error .attributeError := by
  exact ⟨by decide, by decide⟩

/-- C6: the payload branch of `MultipartWriter.append` mutates the
payload's headers and returns `None`, but never calls `append_payload` —
contradicting its own doc comment ("Adds a new body part to multipart
writer"): the writer's ordered part sequence stays empty. -/
theorem c6_append_payload_branch_not_recorded :
    append_obj_payload ⟨[98], [], []⟩
      ⟨[1], .assigned (some [(CONTENT_DISPOSITION, ("attachment").toList)]),
        none, none, none, none⟩
      [(("X").toList, ("Y").toList)] =
      .ok (⟨[98], [], []⟩,
        ⟨[1], .assigned (some [(CONTENT_DISPOSITION, ("attachment").toList),
          (("X").toList, ("Y").toList)]), none, none, none, none⟩, none) ∧
    (⟨[98], [], []⟩ : PyWriter).parts = [] := by
  exact ⟨by decide, rfl⟩

/-- C10 counterexample: a payload constructed with NO headers mapping has
its headers attribute set to `None` — but it cannot be "appended and written
as specified" either: `append_payload` evaluates
`CONTENT_TYPE not in payload.headers` against `None` and raises
`TypeError`. -/
theorem c10_headers_attr_cex :
    (payload_superclass_init [120] (some [])
      (.given (some (("application/octet-stream").toList))) none).headersAttr
      = .assigned none ∧
    append_payload ⟨[98], [], []⟩ (bytesPayloadInit [120] []) =
      .error .typeError := by
  exact ⟨by decide, by decide⟩

/-- C10 (amended): a payload constructed with a non-empty headers mapping
stores the mapping under the misspelled attribute `headrs` and never assigns
the `headers` attribute, so `append_payload` (which reads
`payload.headers`) fails with `AttributeError`.  A payload constructed with
no headers has `headers = None`, and appending it fails too, with a
`TypeError` on the Content-Type membership test against `None`.
`append_payload` can succeed only for a payload whose headers attribute
holds an actual header map (assigned after construction, e.g. by
`set_content_disposition`). -/
theorem c10_headers_attr_amended :
    (∀ v hs ct fn, hs ≠ [] →
      (payload_superclass_init v (some hs) ct fn).headersAttr =
        .unassigned ∧
      (payload_superclass_init v (some hs) ct fn).headrs = some hs) ∧
    (∀ w p, p.headersAttr = .unassigned →
      append_payload w p = .error .attributeError) ∧
    (∀ w p, p.headersAttr = .assigned none →
      append_payload w p = .error .typeError) ∧
    (∀ w p r, append_payload w p = .ok r →
      ∃ h, p.headersAttr = .assigned (some h)) := by
  refine ⟨?_, ?_, ?_, ?_⟩
  · intro v hs ct fn hne
    have hne' : hs.isEmpty = false := by
      simpa [List.isEmpty_iff] using hne
    constructor <;> simp [payload_superclass_init, hne']
  · intro w p h
    simp [append_payload, h]
  · intro w p h
    simp [append_payload, h]
  · intro w p r hok
    cases hp : p.headersAttr with
    | unassigned => simp [append_payload, hp] at hok
    | assigned oh =>
        cases oh with
        | none => simp [append_payload, hp] at hok
        | some h => exact ⟨h, rfl⟩

/-- C10 witness: the amended conjuncts at concrete payloads — a non-empty
headers mapping lands in `headrs` with `headers` unassigned; appending an
unassigned-headers payload raises `AttributeError`; appending a
`headers = None` payload raises `TypeError`. -/
theorem c10_headers_attr_witness :
    (payload_superclass_init [1] (some [(("A").toList, ("B").toList)])
      .sentinel none).headersAttr = .unassigned ∧
    (payload_superclass_init [1] (some [(("A").toList, ("B").toList)])
      .sentinel none).headrs = some [(("A").toList, ("B").toList)] ∧
    append_payload ⟨[98], [], []⟩
      ⟨[1], .unassigned, some [(("A").toList, ("B").toList)], none, none,
        none⟩ = .error .attributeError ∧
    append_payload ⟨[98], [], []⟩
      ⟨[2], .assigned none, none, none, none, none⟩ = .error .typeError := by
  have h1 := c10_headers_attr_amended.1 [1] [(("A").toList, ("B").toList)]
    .sentinel none (by decide)
  exact ⟨h1.1, h1.2,
    c10_headers_attr_amended.2.1 ⟨[98], [], []⟩
      ⟨[1], .unassigned, some [(("A").toList, ("B").toList)], none, none,
        none⟩ rfl,
    c10_headers_attr_amended.2.2.1 ⟨[98], [], []⟩
      ⟨[2], .assigned none, none, none, none, none⟩ rfl⟩

/-- C9 counterexample: the claim's three-way split is stated for every
caller-supplied boundary byte string, but for the empty boundary every byte
is (vacuously) a valid token character, yet the writer does not emit the raw
(empty) token: it emits the quoted string `""`. -/
theorem c9_boundary_rendering_cex :
    ([] : List Nat).all tcharB = true ∧
    boundary_value [] ≠ Except.ok [] ∧
    boundary_value [] = Except.ok [34, 34] := by
  refine ⟨by decide, by decide, by decide⟩

/-- C9 (amended): for every NON-EMPTY caller-supplied boundary byte string,
if every byte is a valid structured-header token character the writer emits
the raw token; else if the boundary contains a byte illegal even inside a
quoted string (a control character other than TAB) construction fails with
the invalid-boundary `ValueError`; else the writer emits the boundary as a
double-quoted string with backslash and double-quote escaped. -/
theorem c9_boundary_rendering_amended (b : List Nat) (hne : b ≠ []) :
    (b.all tcharB = true → boundary_value b = .ok b) ∧
    (b.all tcharB = false → b.any badQdtextB = true →
      boundary_value b = .error .valueError) ∧
    (b.all tcharB = false → b.any badQdtextB = false →
      boundary_value b = .ok (34 :: (escQuoted b ++ [34]))) := by
  refine ⟨fun hall => ?_, fun hall hbad => ?_, fun hall hbad => ?_⟩
  · simp [boundary_value, hne, hall]
  · simp [boundary_value, hne, hall, hbad]
  · simp [boundary_value, hne, hall, hbad]

/-- C9 witness: instantiating the amended trichotomy at the concrete
boundaries `[65]` (token), `[32]` (space: quoted) and `[1]` (control byte:
construction error). -/
theorem c9_boundary_rendering_witness :
    boundary_value [65] = .ok [65] ∧
    boundary_value [32] = .ok [34, 32, 34] ∧
    boundary_value [1] = .error .valueError := by
  refine ⟨(c9_boundary_rendering_amended [65] (by decide)).1 (by decide),
    ?_, ?_⟩
  · have h := (c9_boundary_rendering_amended [32] (by decide)).2.2
      (by decide) (by decide)
    simpa [escQuoted] using h
  · exact (c9_boundary_rendering_amended [1] (by decide)).2.1
      (by decide) (by decide)
